import Mathlib

/-!
Verification of the ape-party-helper proxy-configuration daemon (src/main.go,
first program block).  The Go code is shallowly embedded: external command
execution, JSON decoding and the stdlib URL parser are passed in as oracles,
and every handler returns both its response and the trace of external
commands it issued.
-/

namespace ApeHelper

/-! ## String primitives modelling the Go standard library -/

/-- Characters removed by strings.TrimSpace (ASCII whitespace model). -/
def goSpace (c : Char) : Bool :=
  c == ' ' || c == '\t' || c == '\n' || c == Char.ofNat 11 || c == Char.ofNat 12 || c == '\r'

/-- strings.TrimSpace on a character list. -/
def trimChars (l : List Char) : List Char :=
  ((l.dropWhile goSpace).reverse.dropWhile goSpace).reverse

/-- Model of strings.TrimSpace. -/
def goTrimSpace (s : String) : String := String.mk (trimChars s.data)

/-- Model of strings.ContainsAny. -/
def containsAny (s chars : String) : Bool :=
  s.data.any (fun c => chars.data.contains c)

/-- Substring containment on character lists (model of strings.Contains). -/
def containsSub (sub : List Char) : List Char → Bool
  | [] => sub.isEmpty
  | c :: rest => sub.isPrefixOf (c :: rest) || containsSub sub rest

/-- Model of strings.Contains. -/
def goContains (s sub : String) : Bool := containsSub sub.data s.data

/-- Model of strings.HasPrefix. -/
def goHasPrefix (s pre : String) : Bool := pre.data.isPrefixOf s.data

/-- Model of strings.HasSuffix. -/
def goHasSuffix (s suf : String) : Bool := suf.data.isSuffixOf s.data

/-- Split on a single-character separator (model of strings.Split for the
one-character separators used by the program: comma, space, newline). -/
def splitChar (sep : Char) : List Char → List (List Char)
  | [] => [[]]
  | c :: rest =>
    if c == sep then [] :: splitChar sep rest
    else
      match splitChar sep rest with
      | t :: ts => (c :: t) :: ts
      | [] => [[c]]

/-- Split at the first occurrence of a separator (model of
strings.SplitN(s, sep, 2): `some (before, after)` when the separator occurs,
`none` when it does not). -/
def splitFirst (sep : List Char) : List Char → Option (List Char × List Char)
  | [] => none
  | c :: rest =>
    if sep.isPrefixOf (c :: rest) then some ([], (c :: rest).drop sep.length)
    else
      match splitFirst sep rest with
      | some (pre, post) => some (c :: pre, post)
      | none => none

/-- Model of strings.TrimPrefix(s, "*"): strip one leading star. -/
def goTrimPrefixStar (s : String) : String :=
  match s.data with
  | c :: rest => if c = '*' then String.mk rest else s
  | [] => s

/-- Numeric value of a digit list. -/
def digitsToNat (l : List Char) : Nat :=
  l.foldl (fun acc c => acc * 10 + (c.toNat - 48)) 0

/-- Model of strconv.Atoi's success condition: an optional single sign
followed by at least one decimal digit, with the resulting value inside the
signed 64-bit range (Go int on 64-bit platforms). -/
def atoiOk (s : String) : Bool :=
  match s.data with
  | '+' :: rest => !rest.isEmpty && rest.all Char.isDigit && digitsToNat rest ≤ 2 ^ 63 - 1
  | '-' :: rest => !rest.isEmpty && rest.all Char.isDigit && digitsToNat rest ≤ 2 ^ 63
  | l => !l.isEmpty && l.all Char.isDigit && digitsToNat l ≤ 2 ^ 63 - 1

/-! ## URL parser collaborator -/

/-- The only field of a parsed URL the program consults. -/
structure GoURL where
  scheme : String
deriving DecidableEq, Repr

/-- Type of the net/url.Parse collaborator. -/
def ParseURL : Type := String → Except String GoURL

/-- Scheme scanner of net/url's getscheme: letters continue a scheme;
a colon ends it (error when it comes first); digits and `+ - .` may continue
but not start it; any other character means the URL has no scheme. -/
def getSchemeAux : List Char → List Char → Except String (Option (List Char))
  | _, [] => .ok none
  | acc, c :: rest =>
    if c.isAlpha then getSchemeAux (c :: acc) rest
    else if c == ':' then
      if acc.isEmpty then .error "missing protocol scheme" else .ok (some acc.reverse)
    else if c.isDigit || c == '+' || c == '-' || c == '.' then
      if acc.isEmpty then .ok none else getSchemeAux (c :: acc) rest
    else .ok none

/-- Model of Go net/url.Parse restricted to what validatePacURL consumes:
control-character rejection and scheme extraction (lower-cased); the stdlib
parser's further error cases are not modelled and any concrete parser can be
substituted through the `ParseURL` parameter. -/
def urlParseModel : ParseURL := fun s =>
  if s.data.any (fun c => c.toNat < 32 || c.toNat == 127) then
    .error "net/url: invalid control character in URL"
  else
    match getSchemeAux [] s.data with
    | .error e => .error e
    | .ok none => .ok ⟨""⟩
    | .ok (some sch) => .ok ⟨String.mk (sch.map Char.toLower)⟩

/-! ## Input validators (main.go 47-98) -/

/-- Dangerous characters checked for PAC URLs (main.go line 48). -/
def pacDangerSet : String := "&|;`$()\x7b\x7d[]<>\\"

/-- Dangerous characters checked for the global host and for bypass tokens
(main.go lines 66 and 89): the PAC set without the angle brackets. -/
def hostDangerSet : String := "&|;`$()\x7b\x7d[]\\"

/-- Translated from validatePacURL (main.go 47-62). -/
def validatePacURL (parse : ParseURL) (urlStr : String) : Except String String :=
  if containsAny urlStr pacDangerSet then .error "url contains illegal characters"
  else
    match parse urlStr with
    | .error e => .error e
    | .ok u =>
      if !(u.scheme == "http") && !(u.scheme == "https") then
        .error "url must use http or https protocol"
      else .ok urlStr

/-- The bypass string split shared by validateGlobalProxy (main.go 76-81)
and setGlobalProxy (main.go 203-209): split on commas when a comma occurs,
on spaces otherwise. -/
def bypassDomainsOf (bypass : String) : List String :=
  if goContains bypass "," then (splitChar ',' bypass.data).map String.mk
  else (splitChar ' ' bypass.data).map String.mk

/-- The per-token loop of validateGlobalProxy (main.go 83-95). -/
def checkBypassDomains : List String → Except String Unit
  | [] => .ok ()
  | d :: rest =>
    let domain := goTrimSpace d
    if domain == "" then checkBypassDomains rest
    else if containsAny domain hostDangerSet then
      if !(goHasPrefix domain "<" && goHasSuffix domain ">") then
        .error "bypass domain contains illegal characters"
      else checkBypassDomains rest
    else checkBypassDomains rest

/-- Translated from validateGlobalProxy (main.go 65-98). -/
def validateGlobalProxy (host port bypass : String) : Except String Unit :=
  if containsAny host hostDangerSet then .error "host contains illegal characters"
  else if !atoiOk port then .error "port must be numeric"
  else checkBypassDomains (bypassDomainsOf bypass)

/-- The clean-domain accumulation loop of setGlobalProxy (main.go 212-218). -/
def cleanDomainsAux : List String → List String
  | [] => []
  | d :: rest =>
    let domain := goTrimSpace d
    if !(domain == "") then domain :: cleanDomainsAux rest else cleanDomainsAux rest

/-- The bypass-domain list actually passed to the external command
(setGlobalProxy, main.go 202-218). -/
def cleanDomains (bypass : String) : List String :=
  cleanDomainsAux (bypassDomainsOf bypass)

/-- The BypassList as the spec words it: choose the split by comma presence,
trim every token, drop the empty ones, keep the order. -/
def bypassListSpec (bypass : String) : List String :=
  ((bypassDomainsOf bypass).map goTrimSpace).filter (fun d => !(d == ""))

/-- Textual non-negative integer (the shape the claim about ports names):
one or more decimal digits. -/
def nonNegIntegerText (s : String) : Bool :=
  !s.data.isEmpty && s.data.all Char.isDigit

/-- The socket path of the first program block (main.go 495). -/
def socketPath : String := "/tmp/ape-party-helper.sock"

/-! ## Service enumerator (main.go 101-134) -/

/-- The per-line parsing of getNetworkServices (main.go 111-127): keep a line
when it starts with an opening parenthesis, contains a closing one, and is
not a hardware-port line; split at the first close-paren-space boundary,
trim the remainder, and keep it when non-empty and not a bare star, after
stripping one leading star and trimming again. -/
def parseServiceLine (line : String) : Option String :=
  if goHasPrefix line "(" && goContains line ")" && !goContains line "Hardware Port:" then
    match splitFirst (String.data ") ") line.data with
    | some (_, post) =>
      let service := String.mk (trimChars post)
      if !(service == "") && !(service == "*") then
        some (goTrimSpace (goTrimPrefixStar service))
      else none
    | none => none
  else none

/-- The line loop of getNetworkServices (main.go 108-127). -/
def parseServices (output : String) : List String :=
  ((splitChar '\n' output.data).map String.mk).filterMap parseServiceLine

/-! ## External command executor -/

/-- External command oracle: an argv vector is mapped to the command's
result, combined output on success or an error text on failure. -/
def Exec : Type := List String → Except String String

/-- Model of cmd.Run: only success or failure is observed. -/
def runOk (exec : Exec) (args : List String) : Except String Unit :=
  match exec args with
  | .ok _ => .ok ()
  | .error e => .error e

/-- Run a command sequence in order, stopping at the first failure; returns
the result together with the trace of commands issued. -/
def runSeq (exec : Exec) : List (List String) → Except String Unit × List (List String)
  | [] => (.ok (), [])
  | c :: cs =>
    match runOk exec c with
    | .error e => (.error e, [c])
    | .ok () =>
      let (r, t) := runSeq exec cs
      (r, c :: t)

/-- The service-listing command (main.go 102). -/
def listServicesCmd : List String := ["networksetup", "-listnetworkserviceorder"]

/-- Translated from getNetworkServices (main.go 101-134); the external
command is consulted through `exec` and recorded in the trace. -/
def getNetworkServices (exec : Exec) : Except String (List String) × List (List String) :=
  match exec listServicesCmd with
  | .error e => (.error e, [listServicesCmd])
  | .ok output =>
    let services := parseServices output
    if services.isEmpty then (.error "no network services found", [listServicesCmd])
    else (.ok services, [listServicesCmd])

/-! ## Proxy configuration applier (main.go 137-231) -/

/-- The five reset commands in their source order (main.go 138-144). -/
def turnOffCmds (service : String) : List (List String) :=
  [["networksetup", "-setautoproxystate", service, "off"],
   ["networksetup", "-setproxyautodiscovery", service, "off"],
   ["networksetup", "-setwebproxystate", service, "off"],
   ["networksetup", "-setsecurewebproxystate", service, "off"],
   ["networksetup", "-setsocksfirewallproxystate", service, "off"]]

/-- Translated from turnOffProxies (main.go 137-154). -/
def turnOffProxies (exec : Exec) (service : String) : Except String Unit × List (List String) :=
  runSeq exec (turnOffCmds service)

/-- Translated from setPACProxy (main.go 157-180). -/
def setPACProxy (exec : Exec) (service pacURL : String) : Except String Unit × List (List String) :=
  match turnOffProxies exec service with
  | (.error e, t) => (.error e, t)
  | (.ok (), t) =>
    let c1 := ["networksetup", "-setautoproxyurl", service, pacURL]
    match runOk exec c1 with
    | .error e => (.error e, t ++ [c1])
    | .ok () =>
      let c2 := ["networksetup", "-setautoproxystate", service, "on"]
      match runOk exec c2 with
      | .error e => (.error e, t ++ [c1, c2])
      | .ok () =>
        let c3 := ["networksetup", "-setproxyautodiscovery", service, "on"]
        match runOk exec c3 with
        | .error e => (.error e, t ++ [c1, c2, c3])
        | .ok () => (.ok (), t ++ [c1, c2, c3])

/-- The three host-port commands of setGlobalProxy (main.go 188-192). -/
def globalProxyCmds (service host port : String) : List (List String) :=
  [["networksetup", "-setwebproxy", service, host, port],
   ["networksetup", "-setsecurewebproxy", service, host, port],
   ["networksetup", "-setsocksfirewallproxy", service, host, port]]

/-- Translated from setGlobalProxy (main.go 183-231). -/
def setGlobalProxy (exec : Exec) (service host port bypass : String) :
    Except String Unit × List (List String) :=
  match turnOffProxies exec service with
  | (.error e, t) => (.error e, t)
  | (.ok (), t0) =>
    match runSeq exec (globalProxyCmds service host port) with
    | (.error e, t1) => (.error e, t0 ++ t1)
    | (.ok (), t1) =>
      if bypass == "" then (.ok (), t0 ++ t1)
      else
        let cds := cleanDomains bypass
        if cds.isEmpty then (.ok (), t0 ++ t1)
        else
          let args := ["networksetup", "-setproxybypassdomains", service] ++ cds
          match runOk exec args with
          | .error e => (.error e, t0 ++ t1 ++ [args])
          | .ok () => (.ok (), t0 ++ t1 ++ [args])

/-- The per-service loop of the /pac handler (main.go 276-284): success
count, error messages in order, and the command trace. -/
def applyPac (exec : Exec) (validURL : String) : List String → Nat × List String × List (List String)
  | [] => (0, [], [])
  | s :: rest =>
    let (r, t) := setPACProxy exec s validURL
    let (n, errs, ts) := applyPac exec validURL rest
    match r with
    | .error e => (n, ("Failed to set PAC proxy for " ++ s ++ ": " ++ e) :: errs, t ++ ts)
    | .ok () => (n + 1, errs, t ++ ts)

/-- The per-service loop of the /global handler (main.go 327-335). -/
def applyGlobal (exec : Exec) (host port bypass : String) :
    List String → Nat × List String × List (List String)
  | [] => (0, [], [])
  | s :: rest =>
    let (r, t) := setGlobalProxy exec s host port bypass
    let (n, errs, ts) := applyGlobal exec host port bypass rest
    match r with
    | .error e => (n, ("Failed to set global proxy for " ++ s ++ ": " ++ e) :: errs, t ++ ts)
    | .ok () => (n + 1, errs, t ++ ts)

/-- The per-service loop of the /off handler (main.go 361-369). -/
def applyOff (exec : Exec) : List String → Nat × List String × List (List String)
  | [] => (0, [], [])
  | s :: rest =>
    let (r, t) := turnOffProxies exec s
    let (n, errs, ts) := applyOff exec rest
    match r with
    | .error e => (n, ("Failed to turn off proxy for " ++ s ++ ": " ++ e) :: errs, t ++ ts)
    | .ok () => (n + 1, errs, t ++ ts)

/-! ## Request router (main.go 246-386) -/

/-- Request body of /pac. -/
structure Pac where
  url : String

/-- Request body of /global. -/
structure Global where
  host : String
  port : String
  bypass : String

/-- HTTP response as the handlers render it: 200 text, 400 JSON error or
500 JSON error. -/
inductive Response where
  | okText (body : String)
  | badRequest (err : String)
  | serverError (err : String)
deriving DecidableEq, Repr

/-- True exactly on the 2xx responses. -/
def Response.is2xx : Response → Bool
  | .okText _ => true
  | _ => false

/-- The /pac verdict rendering (main.go 286-297). -/
def pacVerdict (total successCount : Nat) (errorMessages : List String) : Response :=
  if successCount > 0 then
    if !errorMessages.isEmpty then
      .okText ("PAC proxy set for " ++ toString successCount ++ "/" ++ toString total ++
               " services. Some errors occurred: " ++ String.intercalate "; " errorMessages)
    else .okText "PAC proxy has been set for all services"
  else
    .serverError ("Failed to set PAC proxy for any service: " ++
                  String.intercalate "; " errorMessages)

/-- The /global verdict rendering (main.go 337-348). -/
def globalVerdict (total successCount : Nat) (errorMessages : List String) : Response :=
  if successCount > 0 then
    if !errorMessages.isEmpty then
      .okText ("Global proxy set for " ++ toString successCount ++ "/" ++ toString total ++
               " services. Some errors occurred: " ++ String.intercalate "; " errorMessages)
    else .okText "Global proxy has been set for all services"
  else
    .serverError ("Failed to set global proxy for any service: " ++
                  String.intercalate "; " errorMessages)

/-- The /off verdict rendering (main.go 372-384). -/
def offVerdict (total successCount : Nat) (errorMessages : List String) : Response :=
  if successCount > 0 then
    if !errorMessages.isEmpty then
      .okText ("Proxy turned off for " ++ toString successCount ++ "/" ++ toString total ++
               " services. Some errors occurred: " ++ String.intercalate "; " errorMessages)
    else .okText "Proxy has been turned off for all services"
  else
    .serverError ("Failed to turn off proxy for any service: " ++
                  String.intercalate "; " errorMessages)

/-- Translated from the /pac route handler (main.go 247-298); `dec` is the
result of the ShouldBindJSON collaborator, `parse` the url.Parse
collaborator; the second component is the trace of external commands. -/
def pacHandler (parse : ParseURL) (dec : Except String Pac) (exec : Exec) :
    Response × List (List String) :=
  match dec with
  | .error e => (.badRequest e, [])
  | .ok pac =>
    match validatePacURL parse pac.url with
    | .error e => (.badRequest e, [])
    | .ok validURL =>
      match getNetworkServices exec with
      | (.error e, t) => (.serverError ("Failed to get network services: " ++ e), t)
      | (.ok services, t) =>
        let (successCount, errorMessages, t2) := applyPac exec validURL services
        (pacVerdict services.length successCount errorMessages, t ++ t2)

/-- Translated from the /global route handler (main.go 300-349). -/
def globalHandler (dec : Except String Global) (exec : Exec) :
    Response × List (List String) :=
  match dec with
  | .error e => (.badRequest e, [])
  | .ok g =>
    match validateGlobalProxy g.host g.port g.bypass with
    | .error e => (.badRequest e, [])
    | .ok () =>
      match getNetworkServices exec with
      | (.error e, t) => (.serverError ("Failed to get network services: " ++ e), t)
      | (.ok services, t) =>
        let (successCount, errorMessages, t2) := applyGlobal exec g.host g.port g.bypass services
        (globalVerdict services.length successCount errorMessages, t ++ t2)

/-- Translated from the /off route handler (main.go 351-385). -/
def offHandler (exec : Exec) : Response × List (List String) :=
  match getNetworkServices exec with
  | (.error e, t) => (.serverError ("Failed to get network services: " ++ e), t)
  | (.ok services, t) =>
    let (successCount, errorMessages, t2) := applyOff exec services
    (offVerdict services.length successCount errorMessages, t ++ t2)

/-! ## Socket lifecycle manager (main.go 433-492) -/

/-- Observable server state: the identity of the gin engine carrying the
request-handling logic and the identity of the current listener. -/
structure ServerState where
  engine : Nat
  listener : Nat
deriving DecidableEq, Repr

/-- Filesystem and listener effects of the lifecycle manager. -/
inductive Eff where
  | removeAll (path : String)
  | listen (path : String)
  | chmod (path : String) (mode : Nat)
  | serve (engine : Nat) (listener : Nat)
  | closeListener (l : Nat)
deriving DecidableEq, Repr

/-- Operating-system oracle for one recheck trigger: whether the endpoint
path exists at signal time, the result of net.Listen, whether os.Chmod
succeeds, and whether the delayed final stat succeeds. -/
structure OSOracle where
  pathExists : Bool
  listenRes : Except String Nat
  chmodOk : Bool
  statAfterOk : Bool

/-- Translated from recreateListener (main.go 447-492): remove remnants,
bind a new listener at the same path, re-apply mode 0666 (closing the new
listener when chmod fails), swap the listener reference, serve the same
engine on the new listener, never close the old listener, then stat the
path again. -/
def recreateListener (os : OSOracle) (addr : String) (st : ServerState) :
    Except String Unit × ServerState × List Eff :=
  match os.listenRes with
  | .error e => (.error e, st, [.removeAll addr, .listen addr])
  | .ok l =>
    if !os.chmodOk then
      (.error "chmod failed", st,
       [.removeAll addr, .listen addr, .chmod addr 438, .closeListener l])
    else
      (if os.statAfterOk then .ok () else .error "stat failed",
       ⟨st.engine, l⟩,
       [.removeAll addr, .listen addr, .chmod addr 438, .serve st.engine l])

/-- Translated from the SIGUSR1 loop body of startSignalHandler
(main.go 438-443): recreate the listener exactly when the endpoint path is
missing. -/
def onRecheck (os : OSOracle) (addr : String) (st : ServerState) : ServerState × List Eff :=
  if os.pathExists then (st, [])
  else
    match recreateListener os addr st with
    | (_, st2, t) => (st2, t)

/-! ## Concrete instances used by the witnesses -/

/-- A concrete executor: enumeration yields two services and every
configuration command succeeds. -/
def execAllOk : Exec := fun args =>
  if args = listServicesCmd then .ok "(1) Wi-Fi\n(2) Ethernet\n" else .ok ""

/-! ## Helper lemmas -/

/-- The bypass-token loop accepts a list exactly when every token is blank
after trimming, free of the narrow dangerous set, or angle-bracket
wrapped. -/
theorem checkBypassDomains_ok_iff (l : List String) :
    checkBypassDomains l = .ok () ↔
      ∀ d ∈ l, goTrimSpace d = "" ∨ containsAny (goTrimSpace d) hostDangerSet = false ∨
        (goHasPrefix (goTrimSpace d) "<" = true ∧ goHasSuffix (goTrimSpace d) ">" = true) := by
  induction l with
  | nil => simp [checkBypassDomains]
  | cons d rest ih =>
    by_cases h1 : goTrimSpace d = ""
    · simp [checkBypassDomains, h1, ih]
    · cases h2 : containsAny (goTrimSpace d) hostDangerSet with
      | false => simp [checkBypassDomains, h1, h2, ih]
      | true =>
        cases hp : goHasPrefix (goTrimSpace d) "<" with
        | false => simp [checkBypassDomains, h1, h2, hp]
        | true =>
          cases hs : goHasSuffix (goTrimSpace d) ">" with
          | false => simp [checkBypassDomains, h1, h2, hp, hs]
          | true => simp [checkBypassDomains, h1, h2, hp, hs, ih]

/-- The clean-domain loop is trim-then-drop-empties. -/
theorem cleanDomainsAux_eq (l : List String) :
    cleanDomainsAux l = (l.map goTrimSpace).filter (fun d => !(d == "")) := by
  induction l with
  | nil => rfl
  | cons d rest ih =>
    by_cases h : goTrimSpace d = "" <;> simp [cleanDomainsAux, h, ih]

/-- trimChars is a right-drop after a left-drop of whitespace. -/
theorem trimChars_eq (l : List Char) :
    trimChars l = List.rdropWhile goSpace (l.dropWhile goSpace) := rfl

/-- Trimming is idempotent. -/
theorem trimChars_idem (l : List Char) : trimChars (trimChars l) = trimChars l := by
  rw [trimChars_eq, trimChars_eq]
  have h1 : (List.rdropWhile goSpace (l.dropWhile goSpace)).dropWhile goSpace
      = List.rdropWhile goSpace (l.dropWhile goSpace) := by
    rw [List.dropWhile_eq_self_iff]
    intro hl
    have hpre := List.rdropWhile_prefix goSpace (l.dropWhile goSpace)
    have hlen : 0 < (l.dropWhile goSpace).length :=
      lt_of_lt_of_le hl (List.IsPrefix.length_le hpre)
    have hget := List.IsPrefix.getElem hpre (by simpa using hl)
    have hnot := List.dropWhile_get_zero_not goSpace l hlen
    simpa [List.get_eq_getElem, hget] using hnot
  rw [h1, List.rdropWhile_idempotent]

/-- The trim of a list is empty exactly when the list is all whitespace. -/
theorem trimChars_eq_nil_iff (l : List Char) :
    trimChars l = [] ↔ ∀ x ∈ l, goSpace x := by
  rw [trimChars_eq, List.rdropWhile_eq_nil_iff, ← List.dropWhile_eq_nil_iff,
    List.dropWhile_idempotent, List.dropWhile_eq_nil_iff]

/-- The last character of a non-empty trim result is not whitespace. -/
theorem trimChars_last_not (l : List Char) (h : trimChars l ≠ []) :
    ¬goSpace ((trimChars l).getLast h) :=
  List.rdropWhile_last_not goSpace (l.dropWhile goSpace) h

/-- The getLast? form of the previous lemma. -/
theorem trimChars_getLast?_not (l : List Char) (c : Char)
    (h : (trimChars l).getLast? = some c) : ¬goSpace c := by
  have hne : trimChars l ≠ [] := by
    intro hnil
    rw [hnil] at h
    simp at h
  have heq := List.getLast?_eq_getLast_of_ne_nil hne
  rw [h] at heq
  have : c = (trimChars l).getLast hne := by
    simpa using heq
  rw [this]
  exact trimChars_last_not l hne

/-- A string made from a character list is empty exactly when the list is. -/
theorem stringMk_eq_empty_iff (l : List Char) : String.mk l = "" ↔ l = [] := by
  constructor
  · intro h
    simpa using congrArg String.data h
  · intro h
    rw [h]

/-- Stripping the leading star from a non-blank, non-bare-star trimmed
remainder and trimming again never yields the empty name. -/
theorem stripStar_trim_ne_empty (post : List Char)
    (h1 : ¬String.mk (trimChars post) = "")
    (h2 : ¬String.mk (trimChars post) = "*") :
    ¬goTrimSpace (goTrimPrefixStar (String.mk (trimChars post))) = "" := by
  rw [stringMk_eq_empty_iff] at h1
  cases hL : trimChars post with
  | nil => exact absurd hL h1
  | cons c rest =>
    by_cases hc : c = '*'
    · subst hc
      cases rest with
      | nil =>
        exact absurd (by rw [hL]) h2
      | cons r rs =>
        have hq : (trimChars post).getLast? = (r :: rs).getLast? := by
          rw [hL, List.getLast?_cons_cons]
        obtain ⟨d, hd⟩ : ∃ d, (r :: rs).getLast? = some d := by
          cases hx : (r :: rs).getLast? with
          | none => simp at hx
          | some d => exact ⟨d, rfl⟩
        have hdns : ¬goSpace d := trimChars_getLast?_not post d (by rw [hq, hd])
        have hdm : d ∈ r :: rs := by
          obtain ⟨hne, hdeq⟩ := List.mem_getLast?_eq_getLast (by rw [hd]; exact rfl)
          rw [hdeq]
          exact List.getLast_mem hne
        have hne2 : trimChars (r :: rs) ≠ [] := by
          rw [Ne, trimChars_eq_nil_iff]
          intro hall
          exact hdns (hall _ hdm)
        simp only [goTrimPrefixStar, goTrimSpace, if_pos rfl]
        rw [stringMk_eq_empty_iff]
        exact hne2
    · have hstrip : goTrimPrefixStar (String.mk (c :: rest)) = String.mk (c :: rest) := by
        simp [goTrimPrefixStar, hc]
      rw [hstrip]
      simp only [goTrimSpace]
      rw [stringMk_eq_empty_iff]
      have : trimChars (c :: rest) = c :: rest := by
        rw [← hL, trimChars_idem, hL]
      rw [this]
      simp

/-! ## Claims about the validators -/

/-- C3 as stated is false on the code: the global host is checked against a
narrower set that excludes the angle brackets, so a host containing one of
the claimed characters can pass validation while not being an angle-bracket
wrapped bypass token. -/
theorem c3_counterexample :
    validateGlobalProxy "a<b" "0" "" = Except.ok () ∧
    containsAny "a<b" pacDangerSet = true ∧
    goHasPrefix "a<b" "<" = false :=
  ⟨rfl, rfl, rfl⟩

/-- C3 (amended): PAC URLs are rejected on any character of the full
dangerous set; the global host is rejected on any character of the narrower
set that excludes the angle brackets; with host and port accepted,
validation succeeds exactly when every bypass token is blank after
trimming, free of the narrower set, or wrapped in angle brackets (in which
case it passes unconditionally). -/
theorem c3_validator_charset :
    (∀ (parse : ParseURL) (s : String), containsAny s pacDangerSet = true →
      validatePacURL parse s = .error "url contains illegal characters") ∧
    (∀ host port bypass, containsAny host hostDangerSet = true →
      validateGlobalProxy host port bypass = .error "host contains illegal characters") ∧
    (∀ host port bypass, containsAny host hostDangerSet = false → atoiOk port = true →
      (validateGlobalProxy host port bypass = .ok () ↔
        ∀ d ∈ bypassDomainsOf bypass, goTrimSpace d = "" ∨
          containsAny (goTrimSpace d) hostDangerSet = false ∨
          (goHasPrefix (goTrimSpace d) "<" = true ∧ goHasSuffix (goTrimSpace d) ">" = true))) := by
  refine ⟨?_, ?_, ?_⟩
  · intro parse s h
    simp [validatePacURL, h]
  · intro host port bypass h
    simp [validateGlobalProxy, h]
  · intro host port bypass hh hp
    simp [validateGlobalProxy, hh, hp, checkBypassDomains_ok_iff]

/-- Witness for the amended C3, at the spec's own scenario inputs. -/
theorem c3_witness :
    validateGlobalProxy "10.0.0.1" "8080" "localhost,<local>" = .ok () ↔
      ∀ d ∈ bypassDomainsOf "localhost,<local>", goTrimSpace d = "" ∨
        containsAny (goTrimSpace d) hostDangerSet = false ∨
        (goHasPrefix (goTrimSpace d) "<" = true ∧ goHasSuffix (goTrimSpace d) ">" = true) :=
  c3_validator_charset.2.2 "10.0.0.1" "8080" "localhost,<local>" rfl rfl

/-- C4 as stated is false on the code: strconv.Atoi also accepts negative
integers, so validation accepts a port that is not a non-negative
integer. -/
theorem c4_counterexample :
    validateGlobalProxy "example.com" "-1" "" = Except.ok () ∧
    nonNegIntegerText "-1" = false :=
  ⟨rfl, rfl⟩

/-- C4 (amended): with an accepted host and bypass string, global-mode
validation accepts the port exactly when the text parses as a signed
64-bit integer, an optional plus or minus sign followed by decimal digits
within range. -/
theorem c4_port_atoi (host port bypass : String)
    (hhost : containsAny host hostDangerSet = false)
    (hbyp : checkBypassDomains (bypassDomainsOf bypass) = .ok ()) :
    (validateGlobalProxy host port bypass = .ok ()) ↔ atoiOk port = true := by
  unfold validateGlobalProxy
  rw [hhost]
  cases h : atoiOk port <;> simp [h, hbyp]

/-- Witness for the amended C4 at concrete inputs. -/
theorem c4_witness :
    (validateGlobalProxy "example.com" "8080" "" = .ok ()) ↔ atoiOk "8080" = true :=
  c4_port_atoi "example.com" "8080" "" rfl rfl

/-- A fully successful command sequence issues exactly its command list. -/
theorem runSeq_ok_trace (exec : Exec) (cs : List (List String)) :
    (runSeq exec cs).1 = .ok () → (runSeq exec cs).2 = cs := by
  induction cs with
  | nil => intro; rfl
  | cons c rest ih =>
    simp only [runSeq]
    cases hr : runOk exec c with
    | error e =>
      dsimp only
      intro h
      exact absurd h (by simp)
    | ok u =>
      cases u
      dsimp only
      intro h
      rw [ih h]

/-- A failing command sequence stops at the first failing command: the
trace is the prefix up to and including it, and every earlier command
succeeded. -/
theorem runSeq_err_trace (exec : Exec) (cs : List (List String)) (e : String) :
    (runSeq exec cs).1 = .error e →
    ∃ k, k < cs.length ∧ (runSeq exec cs).2 = cs.take (k + 1) ∧
      runOk exec (cs.getD k []) = .error e ∧
      ∀ i, i < k → runOk exec (cs.getD i []) = .ok () := by
  induction cs with
  | nil => intro h; simp [runSeq] at h
  | cons c rest ih =>
    simp only [runSeq]
    cases hr : runOk exec c with
    | error e2 =>
      dsimp only
      intro h
      have he2 : e2 = e := by simpa using h
      subst he2
      refine ⟨0, by simp, by simp, ?_, ?_⟩
      · rw [List.getD_cons_zero]
        exact hr
      · intro i hi
        exact absurd hi (Nat.not_lt_zero i)
    | ok u =>
      cases u
      dsimp only
      intro h
      obtain ⟨k, hk, ht, he, hprev⟩ := ih h
      refine ⟨k + 1, by simpa using hk, ?_, ?_, ?_⟩
      · rw [List.take_succ_cons, ht]
      · rw [List.getD_cons_succ]
        exact he
      · intro i hi
        cases i with
        | zero =>
          rw [List.getD_cons_zero]
          exact hr
        | succ j =>
          rw [List.getD_cons_succ]
          exact hprev j (by omega)

/-- Every issued command of a sequence run comes from its command list. -/
theorem runSeq_trace_subset (exec : Exec) (cs : List (List String)) :
    ∀ c ∈ (runSeq exec cs).2, c ∈ cs := by
  induction cs with
  | nil => simp [runSeq]
  | cons c rest ih =>
    intro d
    simp only [runSeq]
    cases hr : runOk exec c with
    | error e =>
      dsimp only
      intro hd
      simp only [List.mem_singleton] at hd
      simp [hd]
    | ok u =>
      cases u
      dsimp only
      intro hd
      rcases List.mem_cons.mp hd with hd | hd
      · simp [hd]
      · exact List.mem_cons_of_mem _ (ih d hd)

/-- The /off loop attempts every service: successes and failures add up to
the service count, and the trace concatenates the per-service traces. -/
theorem applyOff_count (exec : Exec) (services : List String) :
    (applyOff exec services).1 + (applyOff exec services).2.1.length = services.length ∧
    (applyOff exec services).2.2 = services.flatMap (fun s => (turnOffProxies exec s).2) := by
  induction services with
  | nil => simp [applyOff]
  | cons s rest ih =>
    simp only [applyOff]
    rcases ht : turnOffProxies exec s with ⟨r, t⟩
    rcases ha : applyOff exec rest with ⟨n, errs, ts⟩
    rw [ha] at ih
    dsimp only at ih ⊢
    obtain ⟨ih1, ih2⟩ := ih
    cases r with
    | error e =>
      dsimp only
      refine ⟨?_, ?_⟩
      · simp only [List.length_cons]
        omega
      · rw [List.flatMap_cons, ih2, ht]
    | ok u =>
      cases u
      dsimp only
      refine ⟨?_, ?_⟩
      · simp only [List.length_cons]
        omega
      · rw [List.flatMap_cons, ih2, ht]

/-- The /pac loop attempts every service. -/
theorem applyPac_count (exec : Exec) (url : String) (services : List String) :
    (applyPac exec url services).1 + (applyPac exec url services).2.1.length
      = services.length := by
  induction services with
  | nil => simp [applyPac]
  | cons s rest ih =>
    simp only [applyPac]
    rcases ht : setPACProxy exec s url with ⟨r, t⟩
    rcases ha : applyPac exec url rest with ⟨n, errs, ts⟩
    rw [ha] at ih
    dsimp only at ih ⊢
    cases r with
    | error e =>
      dsimp only
      simp only [List.length_cons]
      omega
    | ok u =>
      cases u
      dsimp only
      simp only [List.length_cons]
      omega

/-- The /global loop attempts every service. -/
theorem applyGlobal_count (exec : Exec) (host port bypass : String) (services : List String) :
    (applyGlobal exec host port bypass services).1
      + (applyGlobal exec host port bypass services).2.1.length = services.length := by
  induction services with
  | nil => simp [applyGlobal]
  | cons s rest ih =>
    simp only [applyGlobal]
    rcases ht : setGlobalProxy exec s host port bypass with ⟨r, t⟩
    rcases ha : applyGlobal exec host port bypass rest with ⟨n, errs, ts⟩
    rw [ha] at ih
    dsimp only at ih ⊢
    cases r with
    | error e =>
      dsimp only
      simp only [List.length_cons]
      omega
    | ok u =>
      cases u
      dsimp only
      simp only [List.length_cons]
      omega

/-! ## Claim about the reset sequence -/

/-- C8: the reset issues the five disable commands in their fixed order and
exactly five when all succeed; it stops at the first failing command,
returning that failure; a reset failure aborts the rest of the work for
that service in both the PAC and the global path; and for every request
type the per-service loop still attempts every remaining service: in each
of the /off, /pac and /global loops the successes and the recorded
failures add up to the full service count. -/
theorem c8_reset_sequence :
    (∀ (exec : Exec) (service : String), (turnOffProxies exec service).1 = .ok () →
      (turnOffProxies exec service).2 =
        [["networksetup", "-setautoproxystate", service, "off"],
         ["networksetup", "-setproxyautodiscovery", service, "off"],
         ["networksetup", "-setwebproxystate", service, "off"],
         ["networksetup", "-setsecurewebproxystate", service, "off"],
         ["networksetup", "-setsocksfirewallproxystate", service, "off"]]) ∧
    (∀ (exec : Exec) (service e : String), (turnOffProxies exec service).1 = .error e →
      ∃ k, k < 5 ∧ (turnOffProxies exec service).2 = (turnOffCmds service).take (k + 1) ∧
        runOk exec ((turnOffCmds service).getD k []) = .error e ∧
        ∀ i, i < k → runOk exec ((turnOffCmds service).getD i []) = .ok ()) ∧
    (∀ (exec : Exec) (service url e : String), (turnOffProxies exec service).1 = .error e →
      setPACProxy exec service url = (.error e, (turnOffProxies exec service).2)) ∧
    (∀ (exec : Exec) (service host port bypass e : String),
      (turnOffProxies exec service).1 = .error e →
      setGlobalProxy exec service host port bypass
        = (.error e, (turnOffProxies exec service).2)) ∧
    (∀ (exec : Exec) (services : List String),
      (applyOff exec services).1 + (applyOff exec services).2.1.length = services.length ∧
      (applyOff exec services).2.2
        = services.flatMap (fun s => (turnOffProxies exec s).2)) ∧
    (∀ (exec : Exec) (url : String) (services : List String),
      (applyPac exec url services).1 + (applyPac exec url services).2.1.length
        = services.length) ∧
    (∀ (exec : Exec) (host port bypass : String) (services : List String),
      (applyGlobal exec host port bypass services).1
        + (applyGlobal exec host port bypass services).2.1.length = services.length) := by
  refine ⟨?_, ?_, ?_, ?_, ?_, ?_, ?_⟩
  · intro exec service h
    exact runSeq_ok_trace exec (turnOffCmds service) h
  · intro exec service e h
    obtain ⟨k, hk, hrest⟩ := runSeq_err_trace exec (turnOffCmds service) e h
    exact ⟨k, by simpa [turnOffCmds] using hk, hrest⟩
  · intro exec service url e h
    rcases ht : turnOffProxies exec service with ⟨r, t⟩
    rw [ht] at h
    dsimp only at h
    subst h
    simp [setPACProxy, ht]
  · intro exec service host port bypass e h
    rcases ht : turnOffProxies exec service with ⟨r, t⟩
    rw [ht] at h
    dsimp only at h
    subst h
    simp [setGlobalProxy, ht]
  · intro exec services
    exact applyOff_count exec services
  · intro exec url services
    exact applyPac_count exec url services
  · intro exec host port bypass services
    exact applyGlobal_count exec host port bypass services

/-- Witness for C8: the all-success executor issues exactly the five reset
commands in order. -/
theorem c8_witness :
    (turnOffProxies execAllOk "Wi-Fi").1 = Except.ok () ∧
    (turnOffProxies execAllOk "Wi-Fi").2 =
      [["networksetup", "-setautoproxystate", "Wi-Fi", "off"],
       ["networksetup", "-setproxyautodiscovery", "Wi-Fi", "off"],
       ["networksetup", "-setwebproxystate", "Wi-Fi", "off"],
       ["networksetup", "-setsecurewebproxystate", "Wi-Fi", "off"],
       ["networksetup", "-setsocksfirewallproxystate", "Wi-Fi", "off"]] :=
  ⟨rfl, c8_reset_sequence.1 execAllOk "Wi-Fi" rfl⟩

/-- Second element of a four-element list. -/
theorem getD_one_quad (a b c d : String) : ([a, b, c, d] : List String).getD 1 "" = b := rfl

/-- Second element of a five-element list. -/
theorem getD_one_quint (a b c d e : String) :
    ([a, b, c, d, e] : List String).getD 1 "" = b := rfl

/-- A successful PAC validation returns its input unchanged. -/
theorem validatePacURL_ok_id (parse : ParseURL) (s r : String)
    (h : validatePacURL parse s = .ok r) : r = s := by
  unfold validatePacURL at h
  split at h
  case isTrue => exact absurd h (by simp)
  case isFalse =>
    cases hp : parse s with
    | error e =>
      rw [hp] at h
      exact absurd h (by simp)
    | ok u =>
      rw [hp] at h
      dsimp only at h
      split at h
      case isTrue => exact absurd h (by simp)
      case isFalse =>
        have hs : s = r := by simpa using h
        exact hs.symm

/-- No reset command is the automatic-proxy-URL command. -/
theorem turnOff_no_url_cmd (exec : Exec) (service : String) :
    ∀ c ∈ (turnOffProxies exec service).2, ¬c.getD 1 "" = "-setautoproxyurl" := by
  intro c hc
  have hmem := runSeq_trace_subset exec (turnOffCmds service) c hc
  simp only [turnOffCmds, List.mem_cons, List.not_mem_nil, or_false] at hmem
  rcases hmem with rfl | rfl | rfl | rfl | rfl <;>
    · rw [getD_one_quad]
      decide

/-- The only command of a PAC configuration naming the automatic-proxy-URL
operation carries the given URL for the given service. -/
theorem setPACProxy_url_cmd (exec : Exec) (service url : String) :
    ∀ cmd ∈ (setPACProxy exec service url).2, cmd.getD 1 "" = "-setautoproxyurl" →
      cmd = ["networksetup", "-setautoproxyurl", service, url] := by
  intro cmd hmem hname
  unfold setPACProxy at hmem
  rcases ht : turnOffProxies exec service with ⟨r, t⟩
  rw [ht] at hmem
  have htmem : ∀ c ∈ t, ¬c.getD 1 "" = "-setautoproxyurl" := by
    intro c hc
    exact turnOff_no_url_cmd exec service c (by rw [ht]; exact hc)
  cases r with
  | error e =>
    dsimp only at hmem
    exact absurd hname (htmem cmd hmem)
  | ok u =>
    cases u
    dsimp only at hmem
    cases h1 : runOk exec ["networksetup", "-setautoproxyurl", service, url] with
    | error e =>
      rw [h1] at hmem
      dsimp only at hmem
      rcases List.mem_append.mp hmem with h | h
      · exact absurd hname (htmem cmd h)
      · simpa using h
    | ok u =>
      cases u
      rw [h1] at hmem
      dsimp only at hmem
      cases h2 : runOk exec ["networksetup", "-setautoproxystate", service, "on"] with
      | error e =>
        rw [h2] at hmem
        dsimp only at hmem
        rcases List.mem_append.mp hmem with h | h
        · exact absurd hname (htmem cmd h)
        · simp only [List.mem_cons, List.not_mem_nil, or_false] at h
          rcases h with rfl | rfl
          · rfl
          · rw [getD_one_quad] at hname
            exact absurd hname (by decide)
      | ok u =>
        cases u
        rw [h2] at hmem
        dsimp only at hmem
        cases h3 : runOk exec ["networksetup", "-setproxyautodiscovery", service, "on"] with
        | error e =>
          rw [h3] at hmem
          dsimp only at hmem
          rcases List.mem_append.mp hmem with h | h
          · exact absurd hname (htmem cmd h)
          · simp only [List.mem_cons, List.not_mem_nil, or_false] at h
            rcases h with rfl | rfl | rfl
            · rfl
            · rw [getD_one_quad] at hname
              exact absurd hname (by decide)
            · rw [getD_one_quad] at hname
              exact absurd hname (by decide)
        | ok u =>
          cases u
          rw [h3] at hmem
          dsimp only at hmem
          rcases List.mem_append.mp hmem with h | h
          · exact absurd hname (htmem cmd h)
          · simp only [List.mem_cons, List.not_mem_nil, or_false] at h
            rcases h with rfl | rfl | rfl
            · rfl
            · rw [getD_one_quad] at hname
              exact absurd hname (by decide)
            · rw [getD_one_quad] at hname
              exact absurd hname (by decide)

/-- Lifted to the per-service loop of the /pac handler. -/
theorem applyPac_url_cmd (exec : Exec) (url : String) (services : List String) :
    ∀ cmd ∈ (applyPac exec url services).2.2, cmd.getD 1 "" = "-setautoproxyurl" →
      ∃ svc, cmd = ["networksetup", "-setautoproxyurl", svc, url] := by
  induction services with
  | nil => simp [applyPac]
  | cons s rest ih =>
    intro cmd
    simp only [applyPac]
    rcases ht : setPACProxy exec s url with ⟨r, t⟩
    rcases ha : applyPac exec url rest with ⟨n, errs, ts⟩
    cases r with
    | error e =>
      dsimp only
      intro hmem hname
      rcases List.mem_append.mp hmem with h | h
      · exact ⟨s, setPACProxy_url_cmd exec s url cmd (by rw [ht]; exact h) hname⟩
      · exact ih cmd (by rw [ha]; exact h) hname
    | ok u =>
      cases u
      dsimp only
      intro hmem hname
      rcases List.mem_append.mp hmem with h | h
      · exact ⟨s, setPACProxy_url_cmd exec s url cmd (by rw [ht]; exact h) hname⟩
      · exact ih cmd (by rw [ha]; exact h) hname

/-- The enumerator's trace is always exactly the listing command. -/
theorem getNetworkServices_trace (exec : Exec) :
    (getNetworkServices exec).2 = [listServicesCmd] := by
  unfold getNetworkServices
  cases hx : exec listServicesCmd with
  | error e => rfl
  | ok out =>
    dsimp only
    split <;> rfl

/-- An enumeration success is never the empty list. -/
theorem getNetworkServices_ok_ne_nil (exec : Exec) (l : List String) (t : List (List String))
    (h : getNetworkServices exec = (.ok l, t)) : l ≠ [] := by
  unfold getNetworkServices at h
  cases hx : exec listServicesCmd with
  | error e => rw [hx] at h; simp at h
  | ok out =>
    rw [hx] at h
    dsimp only at h
    cases hemp : (parseServices out).isEmpty with
    | true => rw [if_pos (by rw [hemp])] at h; simp at h
    | false =>
      rw [if_neg (by rw [hemp]; simp)] at h
      have hl : parseServices out = l := by
        simpa using congrArg Prod.fst h
      rw [← hl]
      intro hnil
      rw [hnil] at hemp
      simp at hemp

/-- Reduction of the /pac handler on the fully successful control path. -/
theorem pacHandler_ok_reduce (parse : ParseURL) (exec : Exec) (pac : Pac) (u : String)
    (services : List String) (tr : List (List String)) (sc : Nat) (errs : List String)
    (t2 : List (List String))
    (hv : validatePacURL parse pac.url = .ok u)
    (he : getNetworkServices exec = (.ok services, tr))
    (ha : applyPac exec u services = (sc, errs, t2)) :
    pacHandler parse (.ok pac) exec = (pacVerdict services.length sc errs, tr ++ t2) := by
  unfold pacHandler
  dsimp only
  rw [hv]
  dsimp only
  rw [he]
  dsimp only
  rw [ha]

/-- Reduction of the /global handler on the fully successful control path. -/
theorem globalHandler_ok_reduce (exec : Exec) (g : Global)
    (services : List String) (tr : List (List String)) (sc : Nat) (errs : List String)
    (t2 : List (List String))
    (hv : validateGlobalProxy g.host g.port g.bypass = .ok ())
    (he : getNetworkServices exec = (.ok services, tr))
    (ha : applyGlobal exec g.host g.port g.bypass services = (sc, errs, t2)) :
    globalHandler (.ok g) exec = (globalVerdict services.length sc errs, tr ++ t2) := by
  unfold globalHandler
  dsimp only
  rw [hv]
  dsimp only
  rw [he]
  dsimp only
  rw [ha]

/-- Reduction of the /off handler past a successful enumeration. -/
theorem offHandler_reduce (exec : Exec)
    (services : List String) (tr : List (List String)) (sc : Nat) (errs : List String)
    (t2 : List (List String))
    (he : getNetworkServices exec = (.ok services, tr))
    (ha : applyOff exec services = (sc, errs, t2)) :
    offHandler exec = (offVerdict services.length sc errs, tr ++ t2) := by
  unfold offHandler
  rw [he]
  dsimp only
  rw [ha]

/-! ## Claims about the service enumerator -/

/-- C6 as stated is false on the code: the non-empty and not-bare-marker
check runs before the leading star is stripped, so a remainder of two stars
is kept and the kept name is the bare marker itself. -/
theorem c6_counterexample :
    parseServiceLine "(1) **" = some "*" ∧ ("*" : String) = String.mk ['*'] :=
  ⟨rfl, rfl⟩

/-- C6 (amended): a line contributes a name exactly when it starts with an
opening parenthesis, contains a closing one, is not a hardware-port line,
splits at the first close-paren-space boundary, and its trimmed remainder
is non-empty and not a bare star before the star is stripped; the kept
name, the re-trimmed remainder with one leading star stripped, is always
non-empty but can be the bare marker itself. -/
theorem c6_service_line :
    (∀ line name, parseServiceLine line = some name →
      goHasPrefix line "(" = true ∧ goContains line ")" = true ∧
      goContains line "Hardware Port:" = false ∧
      (∃ pre post, splitFirst (String.data ") ") line.data = some (pre, post) ∧
        name = goTrimSpace (goTrimPrefixStar (String.mk (trimChars post))) ∧
        ¬String.mk (trimChars post) = "" ∧ ¬String.mk (trimChars post) = "*") ∧
      ¬name = "") ∧
    (∀ line pre post, goHasPrefix line "(" = true → goContains line ")" = true →
      goContains line "Hardware Port:" = false →
      splitFirst (String.data ") ") line.data = some (pre, post) →
      ¬String.mk (trimChars post) = "" → ¬String.mk (trimChars post) = "*" →
      parseServiceLine line = some (goTrimSpace (goTrimPrefixStar (String.mk (trimChars post))))) := by
  constructor
  · intro line name h
    unfold parseServiceLine at h
    split at h
    case isFalse => exact absurd h (by simp)
    case isTrue hcond =>
      simp only [Bool.and_eq_true, Bool.not_eq_true'] at hcond
      obtain ⟨⟨hpre, hcont⟩, hhw⟩ := hcond
      refine ⟨hpre, hcont, hhw, ?_⟩
      split at h
      case h_2 => exact absurd h (by simp)
      case h_1 pre post hsplit =>
        dsimp only at h
        split at h
        case isFalse => exact absurd h (by simp)
        case isTrue hkeep =>
          simp only [Bool.and_eq_true, Bool.not_eq_true'] at hkeep
          obtain ⟨hne, hnstar⟩ := hkeep
          have hne2 : ¬String.mk (trimChars post) = "" := by
            intro hx
            rw [hx] at hne
            simp at hne
          have hnstar2 : ¬String.mk (trimChars post) = "*" := by
            intro hx
            rw [hx] at hnstar
            simp at hnstar
          have hname : name = goTrimSpace (goTrimPrefixStar (String.mk (trimChars post))) := by
            have := Option.some.inj h
            exact this.symm
          refine ⟨⟨pre, post, hsplit, hname, hne2, hnstar2⟩, ?_⟩
          rw [hname]
          exact stripStar_trim_ne_empty post hne2 hnstar2
  · intro line pre post hpre hcont hhw hsplit hne hnstar
    unfold parseServiceLine
    rw [if_pos (by simp [hpre, hcont, hhw]), hsplit]
    dsimp only
    rw [if_pos (by simp [hne, hnstar])]

/-- Witness for the amended C6 at a concrete disabled-service line. -/
theorem c6_witness :
    parseServiceLine "(2) *Thunderbolt Bridge" = some "Thunderbolt Bridge" ∧
    ¬("Thunderbolt Bridge" : String) = "" :=
  ⟨rfl, (c6_service_line.1 "(2) *Thunderbolt Bridge" "Thunderbolt Bridge" rfl).2.2.2.2⟩

/-- C7: the enumerator propagates a listing-command failure, turns an empty
parse into an error, and never returns an empty list as a success. -/
theorem c7_enumeration_error :
    (∀ (exec : Exec) (l : List String) (t : List (List String)),
      getNetworkServices exec = (.ok l, t) → l ≠ []) ∧
    (∀ (exec : Exec) (e : String), exec listServicesCmd = .error e →
      (getNetworkServices exec).1 = .error e) ∧
    (∀ (exec : Exec) (out : String), exec listServicesCmd = .ok out →
      parseServices out = [] →
      (getNetworkServices exec).1 = .error "no network services found") := by
  refine ⟨?_, ?_, ?_⟩
  · exact getNetworkServices_ok_ne_nil
  · intro exec e h
    simp [getNetworkServices, h]
  · intro exec out h hnil
    simp [getNetworkServices, h, hnil]

/-- Witness for C7 at the concrete all-success executor. -/
theorem c7_witness :
    getNetworkServices execAllOk = (.ok ["Wi-Fi", "Ethernet"], [listServicesCmd]) ∧
    (["Wi-Fi", "Ethernet"] : List String) ≠ [] :=
  ⟨rfl, c7_enumeration_error.1 execAllOk ["Wi-Fi", "Ethernet"] [listServicesCmd] rfl⟩

/-! ## Claims about the router verdicts -/

/-- C1: with a decoded body, passed validation and successful enumeration,
every one of the three handlers renders full success as a 2xx text,
partial success still as a 2xx text carrying the success/total counts and
the joined per-service error details, and zero successes as a server error
carrying the joined details; partial failure is never an error status. -/
theorem c1_verdict_policy :
    (∀ (parse : ParseURL) (exec : Exec) (pac : Pac) (u : String) (services : List String)
       (sc : Nat) (errs : List String) (tr t2 : List (List String)),
      validatePacURL parse pac.url = .ok u →
      getNetworkServices exec = (.ok services, tr) →
      applyPac exec u services = (sc, errs, t2) →
      ((sc = services.length → (pacHandler parse (.ok pac) exec).1
          = .okText "PAC proxy has been set for all services") ∧
       (0 < sc → sc < services.length → (pacHandler parse (.ok pac) exec).1
          = .okText ("PAC proxy set for " ++ toString sc ++ "/" ++ toString services.length
            ++ " services. Some errors occurred: " ++ String.intercalate "; " errs)) ∧
       (sc = 0 → (pacHandler parse (.ok pac) exec).1
          = .serverError ("Failed to set PAC proxy for any service: "
            ++ String.intercalate "; " errs)))) ∧
    (∀ (exec : Exec) (g : Global) (services : List String)
       (sc : Nat) (errs : List String) (tr t2 : List (List String)),
      validateGlobalProxy g.host g.port g.bypass = .ok () →
      getNetworkServices exec = (.ok services, tr) →
      applyGlobal exec g.host g.port g.bypass services = (sc, errs, t2) →
      ((sc = services.length → (globalHandler (.ok g) exec).1
          = .okText "Global proxy has been set for all services") ∧
       (0 < sc → sc < services.length → (globalHandler (.ok g) exec).1
          = .okText ("Global proxy set for " ++ toString sc ++ "/" ++ toString services.length
            ++ " services. Some errors occurred: " ++ String.intercalate "; " errs)) ∧
       (sc = 0 → (globalHandler (.ok g) exec).1
          = .serverError ("Failed to set global proxy for any service: "
            ++ String.intercalate "; " errs)))) ∧
    (∀ (exec : Exec) (services : List String)
       (sc : Nat) (errs : List String) (tr t2 : List (List String)),
      getNetworkServices exec = (.ok services, tr) →
      applyOff exec services = (sc, errs, t2) →
      ((sc = services.length → (offHandler exec).1
          = .okText "Proxy has been turned off for all services") ∧
       (0 < sc → sc < services.length → (offHandler exec).1
          = .okText ("Proxy turned off for " ++ toString sc ++ "/" ++ toString services.length
            ++ " services. Some errors occurred: " ++ String.intercalate "; " errs)) ∧
       (sc = 0 → (offHandler exec).1
          = .serverError ("Failed to turn off proxy for any service: "
            ++ String.intercalate "; " errs)))) := by
  refine ⟨?_, ?_, ?_⟩
  · intro parse exec pac u services sc errs tr t2 hv he ha
    have hred := pacHandler_ok_reduce parse exec pac u services tr sc errs t2 hv he ha
    have hcount : sc + errs.length = services.length := by
      have h0 := applyPac_count exec u services
      rw [ha] at h0
      exact h0
    have hpos : 0 < services.length :=
      List.length_pos.mpr (getNetworkServices_ok_ne_nil exec services tr he)
    refine ⟨?_, ?_, ?_⟩
    · intro hsc
      have herrs : errs = [] := List.length_eq_zero.mp (by omega)
      rw [hred]
      dsimp only
      unfold pacVerdict
      rw [if_pos (by omega), if_neg (by simp [herrs])]
    · intro h1 h2
      have herrs : errs ≠ [] := by
        intro hnil
        rw [hnil] at hcount
        simp at hcount
        omega
      rw [hred]
      dsimp only
      unfold pacVerdict
      rw [if_pos h1, if_pos (by simpa using herrs)]
    · intro hsc
      subst hsc
      rw [hred]
      dsimp only
      unfold pacVerdict
      rw [if_neg (by omega)]
  · intro exec g services sc errs tr t2 hv he ha
    have hred := globalHandler_ok_reduce exec g services tr sc errs t2 hv he ha
    have hcount : sc + errs.length = services.length := by
      have h0 := applyGlobal_count exec g.host g.port g.bypass services
      rw [ha] at h0
      exact h0
    have hpos : 0 < services.length :=
      List.length_pos.mpr (getNetworkServices_ok_ne_nil exec services tr he)
    refine ⟨?_, ?_, ?_⟩
    · intro hsc
      have herrs : errs = [] := List.length_eq_zero.mp (by omega)
      rw [hred]
      dsimp only
      unfold globalVerdict
      rw [if_pos (by omega), if_neg (by simp [herrs])]
    · intro h1 h2
      have herrs : errs ≠ [] := by
        intro hnil
        rw [hnil] at hcount
        simp at hcount
        omega
      rw [hred]
      dsimp only
      unfold globalVerdict
      rw [if_pos h1, if_pos (by simpa using herrs)]
    · intro hsc
      subst hsc
      rw [hred]
      dsimp only
      unfold globalVerdict
      rw [if_neg (by omega)]
  · intro exec services sc errs tr t2 he ha
    have hred := offHandler_reduce exec services tr sc errs t2 he ha
    have hcount : sc + errs.length = services.length := by
      have h0 := applyOff_count exec services
      rw [ha] at h0
      exact h0.1
    have hpos : 0 < services.length :=
      List.length_pos.mpr (getNetworkServices_ok_ne_nil exec services tr he)
    refine ⟨?_, ?_, ?_⟩
    · intro hsc
      have herrs : errs = [] := List.length_eq_zero.mp (by omega)
      rw [hred]
      dsimp only
      unfold offVerdict
      rw [if_pos (by omega), if_neg (by simp [herrs])]
    · intro h1 h2
      have herrs : errs ≠ [] := by
        intro hnil
        rw [hnil] at hcount
        simp at hcount
        omega
      rw [hred]
      dsimp only
      unfold offVerdict
      rw [if_pos h1, if_pos (by simpa using herrs)]
    · intro hsc
      subst hsc
      rw [hred]
      dsimp only
      unfold offVerdict
      rw [if_neg (by omega)]

/-- Witness for C1: fully successful /pac request over two services. -/
theorem c1_witness :
    validatePacURL urlParseModel "http://example.com/p.pac" = .ok "http://example.com/p.pac" ∧
    getNetworkServices execAllOk = (.ok ["Wi-Fi", "Ethernet"], [listServicesCmd]) ∧
    (pacHandler urlParseModel (.ok ⟨"http://example.com/p.pac"⟩) execAllOk).1
      = .okText "PAC proxy has been set for all services" := by
  refine ⟨rfl, rfl, ?_⟩
  exact (c1_verdict_policy.1 urlParseModel execAllOk ⟨"http://example.com/p.pac"⟩
    "http://example.com/p.pac" ["Wi-Fi", "Ethernet"] 2 [] [listServicesCmd]
    (applyPac execAllOk "http://example.com/p.pac" ["Wi-Fi", "Ethernet"]).2.2
    rfl rfl rfl).1 rfl

/-- C2: a decode failure or a validation failure on /pac or /global yields
a client error and an empty command trace: no enumeration and no
configuration command is ever issued. -/
theorem c2_no_commands_before_validation :
    (∀ (parse : ParseURL) (exec : Exec) (e : String),
      pacHandler parse (.error e) exec = (.badRequest e, [])) ∧
    (∀ (parse : ParseURL) (exec : Exec) (pac : Pac) (e : String),
      validatePacURL parse pac.url = .error e →
      pacHandler parse (.ok pac) exec = (.badRequest e, [])) ∧
    (∀ (exec : Exec) (e : String),
      globalHandler (.error e) exec = (.badRequest e, [])) ∧
    (∀ (exec : Exec) (g : Global) (e : String),
      validateGlobalProxy g.host g.port g.bypass = .error e →
      globalHandler (.ok g) exec = (.badRequest e, [])) := by
  refine ⟨?_, ?_, ?_, ?_⟩
  · intro parse exec e
    rfl
  · intro parse exec pac e h
    unfold pacHandler
    dsimp only
    rw [h]
  · intro exec e
    rfl
  · intro exec g e h
    unfold globalHandler
    dsimp only
    rw [h]

/-- Witness for C2: an invalid-scheme URL is rejected with no commands. -/
theorem c2_witness :
    validatePacURL urlParseModel "ftp://x" = .error "url must use http or https protocol" ∧
    pacHandler urlParseModel (.ok ⟨"ftp://x"⟩) execAllOk
      = (.badRequest "url must use http or https protocol", []) :=
  ⟨rfl, c2_no_commands_before_validation.2.1 urlParseModel execAllOk ⟨"ftp://x"⟩ _ rfl⟩

/-! ## Claim about URL identity -/

/-- C10: when PAC-URL validation succeeds it returns its input unchanged,
and every automatic-proxy-URL command a /pac request issues carries the
byte-identical URL of the request body. -/
theorem c10_url_identity :
    (∀ (parse : ParseURL) (s r : String), validatePacURL parse s = .ok r → r = s) ∧
    (∀ (parse : ParseURL) (exec : Exec) (pac : Pac) (cmd : List String),
      cmd ∈ (pacHandler parse (.ok pac) exec).2 → cmd.getD 1 "" = "-setautoproxyurl" →
      ∃ svc, cmd = ["networksetup", "-setautoproxyurl", svc, pac.url]) := by
  refine ⟨validatePacURL_ok_id, ?_⟩
  intro parse exec pac cmd hmem hname
  unfold pacHandler at hmem
  dsimp only at hmem
  cases hv : validatePacURL parse pac.url with
  | error e =>
    rw [hv] at hmem
    dsimp only at hmem
    simp at hmem
  | ok u =>
    rw [hv] at hmem
    dsimp only at hmem
    have hu : u = pac.url := validatePacURL_ok_id parse pac.url u hv
    subst hu
    rcases he : getNetworkServices exec with ⟨res, tr⟩
    rw [he] at hmem
    have htr : tr = [listServicesCmd] := by
      have h2 := getNetworkServices_trace exec
      rw [he] at h2
      exact h2
    subst htr
    cases res with
    | error e =>
      dsimp only at hmem
      simp only [List.mem_singleton] at hmem
      subst hmem
      exact absurd hname (by decide)
    | ok services =>
      dsimp only at hmem
      rcases ha : applyPac exec pac.url services with ⟨sc, errs, t2⟩
      rw [ha] at hmem
      dsimp only at hmem
      rcases List.mem_append.mp hmem with h | h
      · simp only [List.mem_singleton] at h
        subst h
        exact absurd hname (by decide)
      · exact applyPac_url_cmd exec pac.url services cmd (by rw [ha]; exact h) hname

/-- Witness for C10 at a concrete request against the all-success
executor. -/
theorem c10_witness :
    (["networksetup", "-setautoproxyurl", "Wi-Fi", "http://example.com/p.pac"] : List String)
        ∈ (pacHandler urlParseModel (.ok ⟨"http://example.com/p.pac"⟩) execAllOk).2 ∧
    ∃ svc,
      (["networksetup", "-setautoproxyurl", "Wi-Fi", "http://example.com/p.pac"] : List String)
        = ["networksetup", "-setautoproxyurl", svc, "http://example.com/p.pac"] :=
  ⟨by decide,
   c10_url_identity.2 urlParseModel execAllOk ⟨"http://example.com/p.pac"⟩
     ["networksetup", "-setautoproxyurl", "Wi-Fi", "http://example.com/p.pac"]
     (by decide) (by decide)⟩

/-! ## Claim about the socket lifecycle -/

/-- C9: on a recheck trigger the manager rebinds exactly when the endpoint
path is missing; rebinding removes remnants, binds a brand-new listener at
the same path, reapplies the permissive 0666 mode, serves the same engine
on the new listener, and never closes the previous listener. -/
theorem c9_socket_lifecycle :
    (∀ (os : OSOracle) (addr : String) (st : ServerState),
      os.pathExists = true → onRecheck os addr st = (st, [])) ∧
    (∀ (os : OSOracle) (addr : String) (st : ServerState),
      os.pathExists = false →
      (onRecheck os addr st).2.take 2 = [.removeAll addr, .listen addr]) ∧
    (∀ (os : OSOracle) (addr : String) (st : ServerState) (l : Nat),
      os.pathExists = false → os.listenRes = .ok l → os.chmodOk = true →
      onRecheck os addr st = (⟨st.engine, l⟩,
        [.removeAll addr, .listen addr, .chmod addr 438, .serve st.engine l])) ∧
    (∀ (os : OSOracle) (addr : String) (st : ServerState),
      (∀ l, os.listenRes = .ok l → l ≠ st.listener) →
      Eff.closeListener st.listener ∉ (onRecheck os addr st).2) := by
  refine ⟨?_, ?_, ?_, ?_⟩
  · intro os addr st h
    unfold onRecheck
    rw [if_pos h]
  · intro os addr st h
    unfold onRecheck
    rw [if_neg (by simp [h])]
    unfold recreateListener
    cases hl : os.listenRes with
    | error e => rfl
    | ok l =>
      try dsimp only
      cases hc : os.chmodOk with
      | false => rfl
      | true =>
        try dsimp only
        cases hs : os.statAfterOk with
        | false => rfl
        | true => rfl
  · intro os addr st l hpath hlisten hchmod
    unfold onRecheck
    rw [if_neg (by simp [hpath])]
    unfold recreateListener
    rw [hlisten]
    try dsimp only
    rw [hchmod]
    rfl
  · intro os addr st hfresh
    unfold onRecheck
    cases hp : os.pathExists with
    | true => simp
    | false =>
      rw [if_neg (by simp)]
      unfold recreateListener
      cases hl : os.listenRes with
      | error e =>
        try dsimp only
        intro hmem
        cases hmem with
        | tail _ h =>
          cases h with
          | tail _ h2 => cases h2
      | ok l =>
        have hne : l ≠ st.listener := hfresh l hl
        try dsimp only
        cases hc : os.chmodOk with
        | false =>
          try dsimp only
          intro hmem
          cases hmem with
          | tail _ h =>
            cases h with
            | tail _ h2 =>
              cases h2 with
              | tail _ h3 =>
                cases h3 with
                | head => exact hne rfl
                | tail _ h4 => cases h4
        | true =>
          try dsimp only
          cases hs : os.statAfterOk with
          | false =>
            intro hmem
            cases hmem with
            | tail _ h =>
              cases h with
              | tail _ h2 =>
                cases h2 with
                | tail _ h3 =>
                  cases h3 with
                  | tail _ h4 => cases h4
          | true =>
            intro hmem
            cases hmem with
            | tail _ h =>
              cases h with
              | tail _ h2 =>
                cases h2 with
                | tail _ h3 =>
                  cases h3 with
                  | tail _ h4 => cases h4

/-- Witness for C9: successful rebinding at the program's socket path. -/
theorem c9_witness :
    onRecheck ⟨false, .ok 7, true, true⟩ socketPath ⟨1, 3⟩
      = (⟨1, 7⟩, [.removeAll socketPath, .listen socketPath,
          .chmod socketPath 438, .serve 1 7]) :=
  c9_socket_lifecycle.2.2.1 ⟨false, .ok 7, true, true⟩ socketPath ⟨1, 3⟩ 7 rfl rfl rfl

/-- C5: the bypass list passed to the external command equals the
spec-level pipeline: split on commas when one occurs and on spaces
otherwise, trim every token, silently drop the empty ones, keep the order;
including the spec's two worked examples. -/
theorem c5_bypass_parsing :
    (∀ bypass, cleanDomains bypass = bypassListSpec bypass) ∧
    cleanDomains "a.com, b.com" = ["a.com", "b.com"] ∧
    cleanDomains "a.com b.com" = ["a.com", "b.com"] := by
  refine ⟨?_, rfl, rfl⟩
  intro bypass
  exact cleanDomainsAux_eq (bypassDomainsOf bypass)

end ApeHelper
